import Mathlib

/-!
Verification of the loki-nodeservice registry-and-dispatch layer
(lokiservice.js) against its specification.

The module is embedded shallowly: JS objects become ordered association
lists, the lokijs store collaborator is modelled at its interface
(collections with documents, named transforms and dynamic views), the
nested databaseRegistry hash becomes a nested association list, and the
single-threaded request lifecycle (startTiming, process op, stopTiming,
callback) becomes explicit state passing over a SvcState value.  Thrown
JS exceptions become Except errors named after their cause.
-/

namespace LokiService

/-- Primitive JSON-like scalar values appearing in record fields. -/
inductive Prim where
  | pnull
  | pnum (n : Int)
  | pstr (s : String)
  | pbool (b : Bool)
deriving Repr, DecidableEq

/-- A record field value: a scalar or an array of scalars (enough for the
payload shapes exercised by this service, e.g. the tags list). -/
inductive Val where
  | prim (p : Prim)
  | arr (xs : List Prim)
deriving Repr, DecidableEq

/-- A JS object / document: ordered association list of fields. -/
abbrev Rec := List (String × Val)

/-- Generic JS object property read over an association list: first
binding wins (every object a JS program builds has unique keys). -/
def lookupStr (m : List (String × α)) (k : String) : Option α :=
  match m with
  | [] => none
  | (k2, v) :: rest => if k2 = k then some v else lookupStr rest k

/-- Generic JS object property write: overwrite in place when the key
exists, append otherwise (insertion order preserved). -/
def setStr (m : List (String × α)) (k : String) (v : α) : List (String × α) :=
  match m with
  | [] => [(k, v)]
  | (k2, w) :: rest => if k2 = k then (k2, v) :: rest else (k2, w) :: setStr rest k v

/-- Generic in-place modification of the value a key is bound to, when
present. -/
def modifyStr (m : List (String × α)) (k : String) (f : α → α) : List (String × α) :=
  match m with
  | [] => []
  | (k2, w) :: rest => if k2 = k then (k2, f w) :: rest else (k2, w) :: modifyStr rest k f

/-- Record field read. -/
def getProp (r : Rec) (k : String) : Option Val :=
  lookupStr r k

/-- The JS hasOwnProperty check. -/
def hasProp (r : Rec) (k : String) : Bool :=
  (getProp r k).isSome

/-- The JS delete operator on a record field. -/
def deleteProp (r : Rec) (k : String) : Rec :=
  r.filter (fun p => p.1 != k)

/-- Record field write. -/
def setProp (r : Rec) (k : String) (v : Val) : Rec :=
  setStr r k v

/-- Object.assign(target, source): copy every source field onto the target
in source order. -/
def objAssign (target source : Rec) : Rec :=
  source.foldl (fun acc p => setProp acc p.1 p.2) target

/-- Keys of a record are pairwise distinct (true of every object produced
by JSON.parse or an object literal). -/
def keysNodup (r : List (String × α)) : Prop :=
  (r.map Prod.fst).Nodup

/-- Digit run at the head of a character list. -/
def digitsPrefix (cs : List Char) : List Char :=
  cs.takeWhile (fun c => c.isDigit)

/-- Numeric value of a digit list. -/
def digitsToNat (ds : List Char) : Nat :=
  ds.foldl (fun a c => a * 10 + (c.toNat - 48)) 0

/-- Model of JS parseInt(s, 10): leading sign and digit prefix, none for
NaN (no leading digits). -/
def jsParseInt (s : String) : Option Int :=
  let cs := s.trim.toList
  match cs with
  | [] => none
  | c :: rest =>
    if c = Char.ofNat 45 then
      match digitsPrefix rest with
      | [] => none
      | ds => some (-(Int.ofNat (digitsToNat ds)))
    else
      match digitsPrefix cs with
      | [] => none
      | ds => some (Int.ofNat (digitsToNat ds))

/-- Serialization of a scalar (JSON.stringify model; string escaping is a
collaborator detail not needed by any claim). -/
def stringifyPrim : Prim → String
  | .pnull => "null"
  | .pnum n => toString n
  | .pstr s => "\"" ++ s ++ "\""
  | .pbool b => if b then "true" else "false"

/-- Serialization of a field value. -/
def stringifyVal : Val → String
  | .prim p => stringifyPrim p
  | .arr xs => "[" ++ String.intercalate "," (xs.map stringifyPrim) ++ "]"

/-- Serialization of a record. -/
def stringifyRec (r : Rec) : String :=
  "\x7b" ++ String.intercalate "," (r.map (fun p => "\"" ++ p.1 ++ "\":" ++ stringifyVal p.2)) ++ "\x7d"

/-- Serialization of an optional record (JSON.stringify(null) is "null"). -/
def stringifyOptRec : Option Rec → String
  | none => "null"
  | some r => stringifyRec r

/-- Serialization of a document list. -/
def stringifyRecs (rs : List Rec) : String :=
  "[" ++ String.intercalate "," (rs.map stringifyRec) ++ "]"

/-!
The lokijs store collaborator, modelled at its interface boundary: find
predicates and transform chains are the closed data set this service and
its example initializer actually use (field equality, numeric bounds,
parameterized bound, simplesort), per design note §9 of the spec.
-/

/-- One field constraint of a find predicate. -/
inductive Cond where
  | ceq (v : Val)
  | clt (bound : Int)
  | clte (bound : Int)
  | clteParam (key : String)
deriving Repr, DecidableEq

/-- A find predicate: conjunction of per-field constraints. -/
abbrev Query := List (String × Cond)

/-- Numeric strict bound check on an optional field value. -/
def numLt (v : Option Val) (bound : Int) : Bool :=
  match v with
  | some (.prim (.pnum n)) => n < bound
  | _ => false

/-- Numeric inclusive bound check on an optional field value. -/
def numLte (v : Option Val) (bound : Int) : Bool :=
  match v with
  | some (.prim (.pnum n)) => n ≤ bound
  | _ => false

/-- Whether a document satisfies one constraint, resolving transform
parameters (the lktxp substitution) against the params record. -/
def condHolds (params : Rec) (r : Rec) (field : String) : Cond → Bool
  | .ceq v => getProp r field == some v
  | .clt bound => numLt (getProp r field) bound
  | .clte bound => numLte (getProp r field) bound
  | .clteParam key =>
      match getProp params key with
      | some (.prim (.pnum bound)) => numLte (getProp r field) bound
      | _ => false

/-- Whether a document matches a whole predicate. -/
def recMatches (params : Rec) (q : Query) (r : Rec) : Bool :=
  q.all (fun p => condHolds params r p.1 p.2)

/-- Filtering a document list by a predicate (Collection.find). -/
def runFind (params : Rec) (q : Query) (docs : List Rec) : List Rec :=
  docs.filter (recMatches params q)

/-- Numeric sort key of a document field (simplesort treats the values of
the sorted property as comparable; the seeded data sorts on age). -/
def propNum (r : Rec) (prop : String) : Int :=
  match getProp r prop with
  | some (.prim (.pnum n)) => n
  | _ => 0

/-- Insertion into a list sorted by the le test. -/
def insSorted (le : Rec → Rec → Bool) (x : Rec) : List Rec → List Rec
  | [] => [x]
  | y :: ys => if le x y then x :: y :: ys else y :: insSorted le x ys

/-- Simplesort of documents on a numeric property, optionally descending. -/
def sortByProp (prop : String) (desc : Bool) (docs : List Rec) : List Rec :=
  let le : Rec → Rec → Bool :=
    if desc then fun a b => propNum b prop ≤ propNum a prop
    else fun a b => propNum a prop ≤ propNum b prop
  docs.foldl (fun acc r => insSorted le r acc) []

/-- One step of a transform chain (the step kinds used by the service's
initializers: a find step and a simplesort step). -/
inductive TStep where
  | tfind (q : Query)
  | tsimplesort (prop : String) (desc : Bool)
deriving Repr, DecidableEq

/-- A named transform chain is a list of steps. -/
abbrev Transform := List TStep

/-- Resultset.transform: run the steps over a document list with the
given transform parameters. -/
def applyTransform (params : Rec) (t : Transform) (docs : List Rec) : List Rec :=
  t.foldl
    (fun acc step =>
      match step with
      | .tfind q => runFind params q acc
      | .tsimplesort prop desc => sortByProp prop desc acc)
    docs

/-- A dynamic view, held by its current materialized data (the
collaborator keeps it continuously up to date; branchResultset starts
from this result set). -/
structure DynView where
  data : List Rec
deriving Repr, DecidableEq

/-- A lokijs collection at the interface this service uses: documents
carrying a store-assigned identity, the identity high-water mark, and the
named transforms and dynamic views registered on it. -/
structure Collection where
  maxId : Nat
  docs : List Rec
  transforms : List (String × Transform)
  views : List (String × DynView)
deriving Repr, DecidableEq

/-- The store-issued identity of a stored document. -/
def lokiId (r : Rec) : Option Int :=
  match getProp r "$loki" with
  | some (.prim (.pnum n)) => some n
  | _ => none

/-- Coercion a lokijs id argument undergoes: numbers pass, strings go
through parseInt, anything else is NaN (none). -/
def idOfVal : Option Val → Option Int
  | some (.prim (.pnum n)) => some n
  | some (.prim (.pstr s)) => jsParseInt s
  | _ => none

/-- Collection.get by numeric id: the document with that identity. -/
def collGet (c : Collection) (n : Int) : Option Rec :=
  c.docs.find? (fun r => lokiId r == some n)

/-- Errors: each constructor names the cause of a JS exception thrown by
the service or its collaborator (all of them surface to the caller as a
thrown error, never through the completion callback). -/
inductive Err where
  | malformedInput
  | undefinedArg
  | nullDatabase
  | nullCollection
  | nullView
  | invalidId
  | recordNotFound
  | alreadyInCollection
  | notInCollection
  | unknownTransform
deriving Repr, DecidableEq

/-- Collection.insert: rejects a document already carrying an identity,
otherwise assigns the next identity and appends. -/
def collInsert (c : Collection) (obj : Rec) : Except Err (Collection × Rec) :=
  if hasProp obj "$loki" then .error .alreadyInCollection
  else
    let newId := c.maxId + 1
    let stored := setProp obj "$loki" (.prim (.pnum (Int.ofNat newId)))
    .ok ({ c with maxId := newId, docs := c.docs ++ [stored] }, stored)

/-- Collection.update: replace the stored document with the same
identity. -/
def collUpdate (c : Collection) (doc : Rec) : Collection :=
  { c with docs := c.docs.map (fun r => if lokiId r == lokiId doc then doc else r) }

/-- Collection.remove of the document with the given identity. -/
def collRemoveId (c : Collection) (n : Int) : Collection :=
  { c with docs := c.docs.filter (fun r => lokiId r != some n) }

/-- A store instance handle.  The instId is the construction identity
used to tell distinct constructions of a store apart (the registry claim
is about instance identity, which a pure embedding must track
explicitly). -/
structure DB where
  instId : Nat
  collections : List (String × Collection)
deriving Repr, DecidableEq

/-!
Registry, stats and the request lifecycle of lokiservice.js.
-/

/-- One requestStats bucket (source lines 36-53 and 88-105): one
counter/time pair per operation kind plus the totals.  Elapsed times are
exact (Int milliseconds) in the model. -/
structure ReqStats where
  totalRequests : Nat
  totalTime : Int
  getRequests : Nat
  getTime : Int
  findRequests : Nat
  findTime : Int
  transformRequests : Nat
  transformTime : Int
  dynamicViewRequests : Nat
  dynamicViewTime : Int
  insertRequests : Nat
  insertTime : Int
  updateRequests : Nat
  updateTime : Int
  removeRequests : Nat
  removeTime : Int
deriving Repr, DecidableEq

/-- The zeroed stats bucket a fresh registry entry starts with. -/
def zeroStats : ReqStats :=
  ⟨0, 0, 0, 0, 0, 0, 0, 0, 0, 0, 0, 0, 0, 0, 0, 0⟩

/-- The seven instrumented operation kinds (the statName strings). -/
inductive OpKind where
  | get
  | find
  | insert
  | update
  | remove
  | transform
  | dynamicView
deriving Repr, DecidableEq

/-- Per-kind request counter projection. -/
def reqOf : OpKind → ReqStats → Nat
  | .get => ReqStats.getRequests
  | .find => ReqStats.findRequests
  | .insert => ReqStats.insertRequests
  | .update => ReqStats.updateRequests
  | .remove => ReqStats.removeRequests
  | .transform => ReqStats.transformRequests
  | .dynamicView => ReqStats.dynamicViewRequests

/-- Per-kind cumulative time projection. -/
def timeOf : OpKind → ReqStats → Int
  | .get => ReqStats.getTime
  | .find => ReqStats.findTime
  | .insert => ReqStats.insertTime
  | .update => ReqStats.updateTime
  | .remove => ReqStats.removeTime
  | .transform => ReqStats.transformTime
  | .dynamicView => ReqStats.dynamicViewTime

/-- The four updates stopTiming performs on one stats bucket: bump the
total pair and the matching per-operation pair. -/
def bumpStats (st : ReqStats) (k : OpKind) (t : Int) : ReqStats :=
  let st2 := { st with totalRequests := st.totalRequests + 1, totalTime := st.totalTime + t }
  match k with
  | .get => { st2 with getRequests := st2.getRequests + 1, getTime := st2.getTime + t }
  | .find => { st2 with findRequests := st2.findRequests + 1, findTime := st2.findTime + t }
  | .insert => { st2 with insertRequests := st2.insertRequests + 1, insertTime := st2.insertTime + t }
  | .update => { st2 with updateRequests := st2.updateRequests + 1, updateTime := st2.updateTime + t }
  | .remove => { st2 with removeRequests := st2.removeRequests + 1, removeTime := st2.removeTime + t }
  | .transform => { st2 with transformRequests := st2.transformRequests + 1, transformTime := st2.transformTime + t }
  | .dynamicView => { st2 with dynamicViewRequests := st2.dynamicViewRequests + 1, dynamicViewTime := st2.dynamicViewTime + t }

/-- One registry entry (source lines 86-106): the store instance handle
(null only if an initializer ever called back with null; the source
checks for that in shutdown) and its zeroed-at-birth stats bucket. -/
structure Entry where
  inst : Option DB
  stats : ReqStats
deriving Repr, DecidableEq

/-- The inner registry level: storage path (filename) to entry. -/
abbrev InnerReg := List (String × Entry)

/-- The databaseRegistry hash: initializer identity (serviceName) to the
inner filename map. -/
abbrev Registry := List (String × InnerReg)

/-- Entry bound to an (identity, path) registry key. -/
def lookupDb (reg : Registry) (sn fn : String) : Option Entry :=
  match lookupStr reg sn with
  | none => none
  | some inner => lookupStr inner fn

/-- The whole mutable service state: the registry and the global
requestStats bucket, plus the next construction identity (ghost state
that names distinct store constructions). -/
structure SvcState where
  registry : Registry
  global : ReqStats
  nextInstId : Nat
deriving Repr, DecidableEq

/-- The state at module load: empty registry, zeroed global stats. -/
def initState : SvcState :=
  ⟨[], zeroStats, 0⟩

/-- An initializer collaborator: from (serviceName, filename) to the
collection set of the store it constructs and seeds (§6: it calls back
exactly once with the instance). -/
abbrev InitF := String → String → List (String × Collection)

/-- Embeds getDatabase (source lines 75-109): return the cached instance
when the key is registered; otherwise invoke the initializer, register a
new entry with zeroed stats, and hand the fresh instance to the caller.
The returned Bool records whether construction was invoked. -/
def getDatabase (initF : InitF) (s : SvcState) (sn fn : String) : SvcState × Option DB × Bool :=
  let outer := (lookupStr s.registry sn).getD []
  match lookupStr outer fn with
  | some e => (s, e.inst, false)
  | none =>
      let db : DB := ⟨s.nextInstId, initF sn fn⟩
      let outer2 := setStr outer fn ⟨some db, zeroStats⟩
      (⟨setStr s.registry sn outer2, s.global, s.nextInstId + 1⟩, some db, true)

/-- Embeds stopTiming (source lines 323-337): accumulate the elapsed time
and counters into the global bucket and into the owning entry's bucket.
(When no entry exists the source would throw; every call site runs after
getDatabase, so the entry is always present there.) -/
def stopTiming (s : SvcState) (sn fn : String) (k : OpKind) (t : Int) : SvcState :=
  ⟨modifyStr s.registry sn (fun inner => modifyStr inner fn (fun e => ⟨e.inst, bumpStats e.stats k t⟩)),
   bumpStats s.global k t, s.nextInstId⟩

/-!
The operation dispatcher.  Every data operation resolves the store through
getDatabase and then runs its body against the resolved instance inside
the resolution callback; a body may write an updated collection back into
the owning instance (the source mutates the shared lokijs object in
place).  Thrown exceptions abort the body, skipping both the write-back
and the stopTiming call.
-/

/-- A structured argument as the host runtime delivers it: already a
structure, a serialized string (whose JSON.parse either yields a value or
throws), or absent (undefined / null). -/
inductive SArg (α : Type) where
  | absent
  | native (a : α)
  | serial (parsed : Option α)
deriving Repr, DecidableEq

/-- The typeof x === string then JSON.parse normalization step. -/
def parseSArg : SArg α → Except Err (Option α)
  | .absent => .ok none
  | .native a => .ok (some a)
  | .serial (some a) => .ok (some a)
  | .serial none => .error .malformedInput

/-- The transformParams normalization (params ? JSON.parse(params) :
undefined): none is a falsy argument, some none a string JSON.parse
rejects, some (some r) a string parsing to r. -/
def parseParams : Option (Option Rec) → Except Err (Option Rec)
  | none => .ok none
  | some none => .error .malformedInput
  | some (some r) => .ok (some r)

/-- Member access db.getCollection(name): throws when the resolved
instance is null, and lokijs returns null for an unknown collection so
the following member access throws. -/
def getCollectionE (odb : Option DB) (cname : String) : Except Err Collection :=
  match odb with
  | none => .error .nullDatabase
  | some db =>
      match lookupStr db.collections cname with
      | none => .error .nullCollection
      | some c => .ok c

/-- What an operation body produces: the serialized response plus, for a
mutating operation, the updated collection to write back. -/
abbrev BodyOut := String × Option (String × Collection)

/-- Write an updated collection back into the owning registry entry (the
in-place mutation of the shared store instance). -/
def setCollection (s : SvcState) (sn fn cname : String) (c : Collection) : SvcState :=
  ⟨modifyStr s.registry sn (fun inner => modifyStr inner fn (fun e =>
      ⟨e.inst.map (fun db => ⟨db.instId, setStr db.collections cname c⟩), e.stats⟩)),
   s.global, s.nextInstId⟩

/-- The getDatabase callback pattern shared by every process function:
resolve the instance (first-use construction included), run the body on
it, and apply the body's store mutation.  A thrown body leaves the state
as resolution left it. -/
def runOp (initF : InitF) (s : SvcState) (sn fn : String)
    (body : Option DB → Except Err BodyOut) : SvcState × Except Err String :=
  let r := getDatabase initF s sn fn
  match body r.2.1 with
  | .error e => (r.1, .error e)
  | .ok (out, none) => (r.1, .ok out)
  | .ok (out, some (cname, c)) => (setCollection r.1 sn fn cname c, .ok out)

/-- A get id argument: a number or a string to coerce. -/
inductive IdArg where
  | inum (n : Int)
  | istr (s : String)
deriving Repr, DecidableEq

/-- The id coercion of processGet (parseInt for strings). -/
def coerceId : IdArg → Option Int
  | .inum n => some n
  | .istr s => jsParseInt s

/-- Body of processGet (source lines 111-121): coerce the id, read the
document, serialize it (null when absent; lokijs throws for a NaN id). -/
def getBody (cname : String) (id : IdArg) (odb : Option DB) : Except Err BodyOut := do
  let c ← getCollectionE odb cname
  match coerceId id with
  | none => .error .invalidId
  | some n => .ok (stringifyOptRec (collGet c n), none)

/-- Embeds processGet. -/
def processGet (initF : InitF) (s : SvcState) (sn fn cname : String) (id : IdArg) :
    SvcState × Except Err String :=
  runOp initF s sn fn (getBody cname id)

/-- Body of processFind (source lines 129-139): parse a serialized query
(inside the resolution callback), then filter; find(undefined) returns
every document. -/
def findBody (cname : String) (query : SArg Query) (odb : Option DB) : Except Err BodyOut := do
  let oq ← parseSArg query
  let c ← getCollectionE odb cname
  match oq with
  | none => .ok (stringifyRecs c.docs, none)
  | some q => .ok (stringifyRecs (runFind [] q c.docs), none)

/-- Embeds processFind. -/
def processFind (initF : InitF) (s : SvcState) (sn fn cname : String) (query : SArg Query) :
    SvcState × Except Err String :=
  runOp initF s sn fn (findBody cname query)

/-- The insert payload stripping (source lines 154-161): drop a literal
zero surrogate identity and any embedded bookkeeping meta field. -/
def stripInsert (obj : Rec) : Rec :=
  let o1 := if getProp obj "$loki" == some (.prim (.pnum 0)) then deleteProp obj "$loki" else obj
  if hasProp o1 "meta" then deleteProp o1 "meta" else o1

/-- Body of processInsert (source lines 147-167): parse, strip, insert,
serialize the stored record. -/
def insertBody (cname : String) (obj : SArg Rec) (odb : Option DB) : Except Err BodyOut := do
  let oo ← parseSArg obj
  match oo with
  | none => .error .undefinedArg
  | some o =>
      let c ← getCollectionE odb cname
      let (c2, stored) ← collInsert c (stripInsert o)
      .ok (stringifyRec stored, some (cname, c2))

/-- Embeds processInsert. -/
def processInsert (initF : InitF) (s : SvcState) (sn fn cname : String) (obj : SArg Rec) :
    SvcState × Except Err String :=
  runOp initF s sn fn (insertBody cname obj)

/-- The update payload stripping (source lines 183-185): drop the meta
bookkeeping field before the merge. -/
def stripUpdate (p : Rec) : Rec :=
  if hasProp p "meta" then deleteProp p "meta" else p

/-- Body of processUpdate (source lines 175-198): parse, strip the meta
bookkeeping field, fetch the existing document by the payload's identity
(an absent target makes the following Object.assign throw — modelled as
recordNotFound; a non-numeric identity makes the lokijs get throw),
merge by Object.assign, write the merged document back. -/
def updateBody (cname : String) (obj : SArg Rec) (odb : Option DB) : Except Err BodyOut := do
  let oo ← parseSArg obj
  match oo with
  | none => .error .undefinedArg
  | some o0 =>
      let o := stripUpdate o0
      let c ← getCollectionE odb cname
      match idOfVal (getProp o "$loki") with
      | none => .error .invalidId
      | some n =>
          match collGet c n with
          | none => .error .recordNotFound
          | some doc =>
              let merged := objAssign doc o
              .ok (stringifyRec merged, some (cname, collUpdate c merged))

/-- Embeds processUpdate. -/
def processUpdate (initF : InitF) (s : SvcState) (sn fn cname : String) (obj : SArg Rec) :
    SvcState × Except Err String :=
  runOp initF s sn fn (updateBody cname obj)

/-- Body of processRemove (source lines 206-219): parse, remove the
document carrying the payload's identity (lokijs throws for a payload
without identity or for an identity it does not hold), and answer the
removal wrapper with the removed document stripped of its bookkeeping
fields. -/
def removeBody (cname : String) (obj : SArg Rec) (odb : Option DB) : Except Err BodyOut := do
  let oo ← parseSArg obj
  match oo with
  | none => .error .undefinedArg
  | some o =>
      let c ← getCollectionE odb cname
      match idOfVal (getProp o "$loki") with
      | none => .error .notInCollection
      | some n =>
          match collGet c n with
          | none => .error .recordNotFound
          | some doc =>
              let removed := deleteProp (deleteProp doc "$loki") "meta"
              .ok ("\x7b\"val\":" ++ stringifyRec removed ++ "\x7d", some (cname, collRemoveId c n))

/-- Embeds processRemove. -/
def processRemove (initF : InitF) (s : SvcState) (sn fn cname : String) (obj : SArg Rec) :
    SvcState × Except Err String :=
  runOp initF s sn fn (removeBody cname obj)

/-- Serialization of a non-materialized chain handle (dataInvoke false
leaves a resultset object to serialize; its JSON shape is a collaborator
detail, modelled as a deterministic rendering of its filtered rows). -/
def stringifyResultset (rs : List Rec) : String :=
  "\x7b\"resultset\":" ++ stringifyRecs rs ++ "\x7d"

/-- Named-transform chain over a collection (Collection.chain with a
transform name). -/
def chainNamed (c : Collection) (tname : String) (params : Rec) : Except Err (List Rec) :=
  match lookupStr c.transforms tname with
  | none => .error .unknownTransform
  | some t => .ok (applyTransform params t c.docs)

/-- Embeds processTransform (source lines 230-249): the serialized
transform params are parsed before the database is resolved (line 232),
dataInvoke defaults to true when undefined or null, and the chain is
materialized only when dataInvoke holds. -/
def processTransform (initF : InitF) (s : SvcState) (sn fn cname tname : String)
    (tparams : Option (Option Rec)) (dataInvoke : Option Bool) :
    SvcState × Except Err String :=
  match parseParams tparams with
  | .error e => (s, .error e)
  | .ok oparams =>
      let di := dataInvoke.getD true
      runOp initF s sn fn (fun odb => do
        let c ← getCollectionE odb cname
        let rs ← chainNamed c tname (oparams.getD [])
        if di then .ok (stringifyRecs rs, none)
        else .ok (stringifyResultset rs, none))

/-- JS truthiness of the optional transform name (an empty string is
falsy). -/
def truthyName : Option String → Bool
  | none => false
  | some s => !s.isEmpty

/-- Branching a dynamic view's result set through a named transform of
the owning collection, then materializing. -/
def branchData (params : Rec) (c : Collection) (dv : DynView) (tname : String) :
    Except Err (List Rec) :=
  match lookupStr c.transforms tname with
  | none => .error .unknownTransform
  | some t => .ok (applyTransform params t dv.data)

/-- Embeds processDynamicView (source lines 260-278).  The params string
is parsed inside the resolution callback (line 263); when a transform
name is supplied, line 270 passes the string literal "transformName" to
branchResultset — not the transformName variable — so the supplied name
is ignored there. -/
def processDynamicView (initF : InitF) (s : SvcState) (sn fn cname vname : String)
    (transformName : Option String) (tparams : Option (Option Rec)) :
    SvcState × Except Err String :=
  runOp initF s sn fn (fun odb => do
    let oparams ← parseParams tparams
    let c ← getCollectionE odb cname
    match lookupStr c.views vname with
    | none => .error .nullView
    | some dv =>
        if truthyName transformName then do
          let rs ← branchData (oparams.getD []) c dv "transformName"
          .ok (stringifyRecs rs, none)
        else .ok (stringifyRecs dv.data, none))

/-!
The module export surface (source lines 343-433): each data operation
starts a timer, runs its process function, and on completion records the
elapsed time and invokes the host callback with a null error argument and
the serialized response.  A thrown exception propagates to the host
instead (the callback is never invoked with an error).
-/

/-- One invocation of the host completion callback. -/
structure CbCall where
  err : Option String
  payload : String
deriving Repr, DecidableEq

/-- The shared completion pattern: on a completed operation stop the
timer (recording stats) and call back (null, response); a thrown
operation propagates. -/
def finishOp (k : OpKind) (sn fn : String) (t : Int) :
    SvcState × Except Err String → SvcState × Except Err CbCall
  | (s, .error e) => (s, .error e)
  | (s, .ok resp) => (stopTiming s sn fn k t, .ok ⟨none, resp⟩)

/-- The get export. -/
def exportsGet (initF : InitF) (s : SvcState) (sn fn cname : String) (id : IdArg) (t : Int) :
    SvcState × Except Err CbCall :=
  finishOp .get sn fn t (processGet initF s sn fn cname id)

/-- The find export. -/
def exportsFind (initF : InitF) (s : SvcState) (sn fn cname : String) (query : SArg Query) (t : Int) :
    SvcState × Except Err CbCall :=
  finishOp .find sn fn t (processFind initF s sn fn cname query)

/-- The insert export. -/
def exportsInsert (initF : InitF) (s : SvcState) (sn fn cname : String) (obj : SArg Rec) (t : Int) :
    SvcState × Except Err CbCall :=
  finishOp .insert sn fn t (processInsert initF s sn fn cname obj)

/-- The update export. -/
def exportsUpdate (initF : InitF) (s : SvcState) (sn fn cname : String) (obj : SArg Rec) (t : Int) :
    SvcState × Except Err CbCall :=
  finishOp .update sn fn t (processUpdate initF s sn fn cname obj)

/-- The remove export. -/
def exportsRemove (initF : InitF) (s : SvcState) (sn fn cname : String) (obj : SArg Rec) (t : Int) :
    SvcState × Except Err CbCall :=
  finishOp .remove sn fn t (processRemove initF s sn fn cname obj)

/-- The transform export. -/
def exportsTransform (initF : InitF) (s : SvcState) (sn fn cname tname : String)
    (tparams : Option (Option Rec)) (dataInvoke : Option Bool) (t : Int) :
    SvcState × Except Err CbCall :=
  finishOp .transform sn fn t (processTransform initF s sn fn cname tname tparams dataInvoke)

/-- The dynamicView export. -/
def exportsDynamicView (initF : InitF) (s : SvcState) (sn fn cname vname : String)
    (transformName : Option String) (tparams : Option (Option Rec)) (t : Int) :
    SvcState × Except Err CbCall :=
  finishOp .dynamicView sn fn t
    (processDynamicView initF s sn fn cname vname transformName tparams)

/-- The inner loop of the shutdown export: the entries of one
initializer's inner map holding a non-null instance, each closed and its
completion callback invoked once. -/
def innerCalls (sn0 : String) (inner : InnerReg) : List (String × String) :=
  inner.filterMap (fun q =>
    match q.2.inst with
    | some _ => some (sn0, q.1)
    | none => none)

/-- Embeds the shutdown export (source lines 503-514): walk the registry
in insertion order and, for every entry holding a non-null instance,
close the instance and invoke the completion callback once.  The result
lists the (serviceName, filename) keys closed, one element per close and
per callback invocation; entries are not removed. -/
def shutdownCalls (reg : Registry) : List (String × String) :=
  reg.foldl (fun acc p => acc ++ innerCalls p.1 p.2) []

/-- What the instanceStats export delivers to its callback. -/
inductive InstCb where
  | nullOnly
  | statsPayload (sn fn : String) (stats : ReqStats) (collNames : List String)
deriving Repr, DecidableEq

/-- Embeds the instanceStats export (source lines 462-501).  Neither miss
check returns after its callback(null): when the serviceName is
unregistered, the second check's property access on undefined throws;
when only the filename is unregistered, execution falls through to the
.instance access on undefined, which throws.  The result pairs the
callback invocations made with whether a TypeError was then thrown. -/
def instanceStatsX (reg : Registry) (sn fn : String) : List InstCb × Bool :=
  match lookupStr reg sn with
  | none => ([.nullOnly], true)
  | some inner =>
      match lookupStr inner fn with
      | none => ([.nullOnly], true)
      | some e =>
          match e.inst with
          | none => ([], true)
          | some db =>
              ([.statsPayload sn fn e.stats (db.collections.map Prod.fst)], false)

/-!
The example initializer (src/example/demo1-service.init.js), used as the
concrete store for witnesses: a users collection seeded with seven
documents (identities assigned 1..7 in insertion order), a locations
collection with nine, the parameterized goddesses transform, and the
Youngsters dynamic view (find age < 100, simplesort age descending,
continuously materialized over the seed data).  The knowlege transform
embeds an executable where-predicate and is outside the pure data model
(spec §9 treats such predicates as unbounded collaborator trust). -/

/-- A seeded user document. -/
def mkUser (id : Int) (nm : String) (age : Int) (gender : Int) (tags : List String) : Rec :=
  [("name", .prim (.pstr nm)), ("age", .prim (.pnum age)), ("gender", .prim (.pnum gender)),
   ("tags", .arr (tags.map Prim.pstr)), ("$loki", .prim (.pnum id))]

/-- The seven seeded users. -/
def demoUsersDocs : List Rec :=
  [mkUser 1 "odin" 999 0 ["knowlege", "sorcery", "frenzy", "runes"],
   mkUser 2 "frigga" 980 1 ["foreknowlege"],
   mkUser 3 "thor" 35 0 ["storms", "hammer"],
   mkUser 4 "sif" 30 1 ["golden hair"],
   mkUser 5 "loki" 25 0 ["shapeshifter", "trickster"],
   mkUser 6 "sigyn" 24 1 ["relief"],
   mkUser 7 "heimdallr" 870 0 ["bifrost", "keen eyesight", "keen hearing"]]

/-- The goddesses transform: find gender 1 with age at most the AgeFilter
parameter, then simplesort age descending. -/
def goddessesTransform : Transform :=
  [.tfind [("gender", .ceq (.prim (.pnum 1))), ("age", .clteParam "AgeFilter")],
   .tsimplesort "age" true]

/-- The Youngsters dynamic view, materialized over the seed data: the
users of age below 100 sorted by age descending. -/
def youngstersView : DynView :=
  ⟨[mkUser 3 "thor" 35 0 ["storms", "hammer"],
    mkUser 4 "sif" 30 1 ["golden hair"],
    mkUser 5 "loki" 25 0 ["shapeshifter", "trickster"],
    mkUser 6 "sigyn" 24 1 ["relief"]]⟩

/-- The seeded users collection. -/
def demoUsers : Collection :=
  ⟨7, demoUsersDocs, [("goddesses", goddessesTransform)], [("Youngsters", youngstersView)]⟩

/-- A seeded location document. -/
def mkLocation (id : Int) (fields : List (String × Val)) : Rec :=
  fields ++ [("$loki", .prim (.pnum id))]

/-- The seeded locations collection. -/
def demoLocations : Collection :=
  ⟨9,
   [mkLocation 1 [("name", .prim (.pstr "Asgard")), ("dwellers", .prim (.pstr "Aesir")), ("ruler", .prim (.pstr "Odin"))],
    mkLocation 2 [("name", .prim (.pstr "Alfheim")), ("dwellers", .prim (.pstr "Elves"))],
    mkLocation 3 [("name", .prim (.pstr "Svartalfheim")), ("dwellers", .prim (.pstr "Dwarves"))],
    mkLocation 4 [("name", .prim (.pstr "Midgard")), ("dwellers", .prim (.pstr "Puny Humans"))],
    mkLocation 5 [("name", .prim (.pstr "Jotunheim")), ("dwellers", .prim (.pstr "Giants"))],
    mkLocation 6 [("name", .prim (.pstr "Vanaheimr")), ("dwellers", .prim (.pstr "Vanir"))],
    mkLocation 7 [("name", .prim (.pstr "Niflheim")), ("dwellers", .prim (.pstr "Ice/Snow"))],
    mkLocation 8 [("name", .prim (.pstr "Muspelheim")), ("dwellers", .prim (.pstr "Fire Giants")), ("ruler", .prim (.pstr "Surtr"))],
    mkLocation 9 [("name", .prim (.pstr "Helheim")), ("dwellers", .prim (.pstr "Deceased"))]],
   [], []⟩

/-- The demo initializer capability: every constructed store holds the
seeded users and locations collections. -/
def demoInit : InitF :=
  fun _ _ => [("users", demoUsers), ("locations", demoLocations)]

/-!
Resolution traces, for the single-construction registry claim: a sequence
of getDatabase requests is replayed while logging, per request, the key,
the instance identity handed to the request's callback, and whether the
initializer's construction capability was invoked.
-/

/-- One logged resolution. -/
structure ResolveObs where
  sn : String
  fn : String
  inst : Option Nat
  constructed : Bool
deriving Repr, DecidableEq

/-- Replay a sequence of getDatabase requests, logging each. -/
def runResolves (initF : InitF) (s : SvcState) : List (String × String) → SvcState × List ResolveObs
  | [] => (s, [])
  | (sn, fn) :: rest =>
      let r := getDatabase initF s sn fn
      let rec2 := runResolves initF r.1 rest
      (rec2.1, ⟨sn, fn, r.2.1.map DB.instId, r.2.2⟩ :: rec2.2)

/-- Number of logged resolutions of a key that invoked construction. -/
def constructionCount (log : List ResolveObs) (sn fn : String) : Nat :=
  (log.filter (fun o => o.sn == sn && o.fn == fn && o.constructed)).length

/-- The instance identity cached in the registry for a key. -/
def cachedInstId (s : SvcState) (sn fn : String) : Option (Option Nat) :=
  (lookupDb s.registry sn fn).map (fun e => e.inst.map DB.instId)

/-- Whether a registry key is bound to an entry holding a non-null
instance. -/
def isLive (reg : Registry) (sn fn : String) : Bool :=
  match lookupDb reg sn fn with
  | some e => e.inst.isSome
  | none => false

/-- Whether one inner map binds a path to an entry holding a non-null
instance. -/
def innerLive (inner : InnerReg) (fn : String) : Bool :=
  match lookupStr inner fn with
  | some e => e.inst.isSome
  | none => false

/-!
Traces of full requests over the export surface, for the stats
consistency claim.
-/

/-- One request of the export surface, carrying its measured elapsed
time. -/
inductive Request where
  | rGet (sn fn cname : String) (id : IdArg) (t : Int)
  | rFind (sn fn cname : String) (query : SArg Query) (t : Int)
  | rInsert (sn fn cname : String) (obj : SArg Rec) (t : Int)
  | rUpdate (sn fn cname : String) (obj : SArg Rec) (t : Int)
  | rRemove (sn fn cname : String) (obj : SArg Rec) (t : Int)
  | rTransform (sn fn cname tname : String) (tparams : Option (Option Rec)) (dataInvoke : Option Bool) (t : Int)
  | rDynamicView (sn fn cname vname : String) (transformName : Option String) (tparams : Option (Option Rec)) (t : Int)

/-- The state effect of one request (the callback or thrown error goes
back to the host). -/
def stepRequest (initF : InitF) (s : SvcState) : Request → SvcState
  | .rGet sn fn cname id t => (exportsGet initF s sn fn cname id t).1
  | .rFind sn fn cname query t => (exportsFind initF s sn fn cname query t).1
  | .rInsert sn fn cname obj t => (exportsInsert initF s sn fn cname obj t).1
  | .rUpdate sn fn cname obj t => (exportsUpdate initF s sn fn cname obj t).1
  | .rRemove sn fn cname obj t => (exportsRemove initF s sn fn cname obj t).1
  | .rTransform sn fn cname tname tparams dataInvoke t =>
      (exportsTransform initF s sn fn cname tname tparams dataInvoke t).1
  | .rDynamicView sn fn cname vname transformName tparams t =>
      (exportsDynamicView initF s sn fn cname vname transformName tparams t).1

/-- Replay of a request sequence from a state. -/
def runRequests (initF : InitF) (s : SvcState) (l : List Request) : SvcState :=
  l.foldl (stepRequest initF) s

/-- Sum of a stats projection over every registered entry (both levels of
the registry walked). -/
def statSum {M : Type} [AddCommMonoid M] (f : ReqStats → M) (reg : Registry) : M :=
  (reg.map (fun p => (p.2.map (fun q => f q.2.stats)).sum)).sum

/-- Consistency of the global stats bucket with the per-instance buckets:
every counter and every cumulative time of the global bucket equals the
sum of the matching per-instance values. -/
def statsConsistent (s : SvcState) : Prop :=
  s.global.totalRequests = statSum ReqStats.totalRequests s.registry ∧
  s.global.totalTime = statSum ReqStats.totalTime s.registry ∧
  (∀ k, reqOf k s.global = statSum (reqOf k) s.registry) ∧
  (∀ k, timeOf k s.global = statSum (timeOf k) s.registry)

/-!
Concrete states used by counterexamples and witnesses.
-/

/-- A registry entry holding a freshly constructed demo store. -/
def demoEntry : Entry :=
  ⟨some ⟨0, demoInit "svc" "db"⟩, zeroStats⟩

/-- A service state with the demo store registered under ("svc", "db"). -/
def demoState : SvcState :=
  ⟨[("svc", [("db", demoEntry)])], zeroStats, 1⟩

/-- An existing stored document carrying a meta bookkeeping field. -/
def metaDoc : Rec :=
  [("name", .prim (.pstr "sif")), ("age", .prim (.pnum 30)), ("tags", .arr [.pstr "a"]),
   ("meta", .prim (.pstr "stale")), ("$loki", .prim (.pnum 5))]

/-- A collection holding just that document. -/
def metaColl : Collection :=
  ⟨5, [metaDoc], [], []⟩

/-- An initializer seeding only that collection. -/
def metaInit : InitF :=
  fun _ _ => [("users", metaColl)]

/-- A service state with the meta-carrying store registered. -/
def metaState : SvcState :=
  ⟨[("svc", [("db", ⟨some ⟨0, metaInit "svc" "db"⟩, zeroStats⟩)])], zeroStats, 1⟩

/-- A registry with two live entries, for the shutdown scenario. -/
def twoLiveReg : Registry :=
  [("svcA", [("f1", ⟨some ⟨0, demoInit "svcA" "f1"⟩, zeroStats⟩)]),
   ("svcB", [("f2", ⟨some ⟨1, demoInit "svcB" "f2"⟩, zeroStats⟩)])]

/-!
Association-list and record lemmas shared by the claim proofs.
-/

theorem lookupStr_setStr (m : List (String × α)) (k j : String) (v : α) :
    lookupStr (setStr m k v) j = if k = j then some v else lookupStr m j := by
  induction m with
  | nil => simp [setStr, lookupStr]
  | cons p rest ih =>
      obtain ⟨k2, w⟩ := p
      by_cases h1 : k2 = k
      · subst h1
        by_cases h2 : k2 = j
        · subst h2; simp [setStr, lookupStr]
        · simp [setStr, lookupStr, h2]
      · by_cases h2 : k2 = j
        · subst h2
          have hkj : ¬(k = k2) := fun h => h1 h.symm
          simp [setStr, lookupStr, h1, hkj]
        · simp [setStr, lookupStr, h1, h2, ih]

theorem lookupStr_modifyStr (m : List (String × α)) (k j : String) (f : α → α) :
    lookupStr (modifyStr m k f) j
      = if k = j then (lookupStr m k).map f else lookupStr m j := by
  induction m with
  | nil => simp [modifyStr, lookupStr]
  | cons p rest ih =>
      obtain ⟨k2, w⟩ := p
      by_cases h1 : k2 = k
      · subst h1
        by_cases h2 : k2 = j
        · subst h2; simp [modifyStr, lookupStr]
        · simp [modifyStr, lookupStr, h2]
      · by_cases h2 : k2 = j
        · subst h2
          have hkj : ¬(k = k2) := fun h => h1 h.symm
          simp [modifyStr, lookupStr, h1, hkj]
        · simp [modifyStr, lookupStr, h1, h2, ih]

theorem lookupStr_none_of_not_mem (m : List (String × α)) (k : String)
    (h : k ∉ m.map Prod.fst) : lookupStr m k = none := by
  induction m with
  | nil => rfl
  | cons p rest ih =>
      simp only [List.map, List.mem_cons] at h
      push_neg at h
      have hne : ¬(p.1 = k) := fun hh => h.1 hh.symm
      obtain ⟨k2, w⟩ := p
      simp only [lookupStr]
      rw [if_neg hne]
      exact ih h.2

theorem getProp_none_of_not_mem (r : Rec) (k : String)
    (h : k ∉ r.map Prod.fst) : getProp r k = none :=
  lookupStr_none_of_not_mem r k h

theorem getProp_deleteProp (r : Rec) (k j : String) :
    getProp (deleteProp r k) j = if k = j then none else getProp r j := by
  induction r with
  | nil => simp [deleteProp, getProp, lookupStr]
  | cons p rest ih =>
      obtain ⟨k2, w⟩ := p
      by_cases h1 : k2 = k
      · subst h1
        by_cases h2 : k2 = j
        · subst h2; simpa [deleteProp, getProp, lookupStr] using ih
        · simpa [deleteProp, getProp, lookupStr, h2] using ih
      · by_cases h2 : k2 = j
        · subst h2
          have hkj : ¬(k = k2) := fun h => h1 h.symm
          simp [deleteProp, getProp, lookupStr, h1, hkj]
        · simpa [deleteProp, getProp, lookupStr, h1, h2] using ih

theorem getProp_setProp (r : Rec) (k j : String) (v : Val) :
    getProp (setProp r k v) j = if k = j then some v else getProp r j :=
  lookupStr_setStr r k j v

theorem getProp_cons (k : String) (v : Val) (rest : Rec) (j : String) :
    getProp ((k, v) :: rest) j = if k = j then some v else getProp rest j := by
  show lookupStr _ _ = _
  simp only [lookupStr]
  rfl

theorem getProp_objAssign (t s : Rec) (j : String) (hnd : keysNodup s) :
    getProp (objAssign t s) j
      = match getProp s j with
        | some v => some v
        | none => getProp t j := by
  induction s generalizing t with
  | nil => rfl
  | cons p rest ih =>
      obtain ⟨k, v⟩ := p
      have hnd' : (k ∉ rest.map Prod.fst) ∧ keysNodup rest := by
        unfold keysNodup at hnd ⊢
        rw [List.map_cons, List.nodup_cons] at hnd
        exact hnd
      have step : objAssign t ((k, v) :: rest) = objAssign (setProp t k v) rest := rfl
      rw [step, ih (setProp t k v) hnd'.2]
      by_cases h2 : k = j
      · subst h2
        rw [getProp_none_of_not_mem rest k hnd'.1, getProp_cons, if_pos rfl,
          getProp_setProp, if_pos rfl]
      · rw [getProp_cons, if_neg h2]
        cases hrj : getProp rest j with
        | some u => rfl
        | none =>
            show getProp (setProp t k v) j = getProp t j
            rw [getProp_setProp, if_neg h2]

/-!
Registry resolution lemmas.
-/

theorem lookupDb_eq_outer (reg : Registry) (sn fn : String) :
    lookupDb reg sn fn = lookupStr ((lookupStr reg sn).getD []) fn := by
  unfold lookupDb
  cases lookupStr reg sn <;> rfl

theorem getDatabase_hit (initF : InitF) (s : SvcState) (sn fn : String) (e : Entry)
    (h : lookupDb s.registry sn fn = some e) :
    getDatabase initF s sn fn = (s, e.inst, false) := by
  rw [lookupDb_eq_outer] at h
  simp [getDatabase, h]

theorem getDatabase_miss (initF : InitF) (s : SvcState) (sn fn : String)
    (h : lookupDb s.registry sn fn = none) :
    getDatabase initF s sn fn
      = (⟨setStr s.registry sn
            (setStr ((lookupStr s.registry sn).getD []) fn
              ⟨some ⟨s.nextInstId, initF sn fn⟩, zeroStats⟩),
          s.global, s.nextInstId + 1⟩,
         some ⟨s.nextInstId, initF sn fn⟩, true) := by
  rw [lookupDb_eq_outer] at h
  simp [getDatabase, h]

theorem lookupDb_getDatabase_preserve (initF : InitF) (s : SvcState) (sn fn a b : String)
    (e : Entry) (h : lookupDb s.registry a b = some e) :
    lookupDb (getDatabase initF s sn fn).1.registry a b = some e := by
  cases hdb : lookupDb s.registry sn fn with
  | some e2 =>
      rw [getDatabase_hit initF s sn fn e2 hdb]
      exact h
  | none =>
      rw [getDatabase_miss initF s sn fn hdb]
      rw [lookupDb_eq_outer] at h ⊢
      rw [lookupDb_eq_outer] at hdb
      simp only [lookupStr_setStr]
      by_cases hsa : sn = a
      · subst hsa
        simp only [if_true, Option.getD_some]
        rw [lookupStr_setStr]
        by_cases hfb : fn = b
        · subst hfb; rw [h] at hdb; exact absurd hdb (by simp)
        · rw [if_neg hfb]; exact h
      · rw [if_neg hsa]; exact h

theorem lookupDb_after_getDatabase (initF : InitF) (s : SvcState) (sn fn : String) :
    ∃ e : Entry, lookupDb (getDatabase initF s sn fn).1.registry sn fn = some e ∧
      e.inst = (getDatabase initF s sn fn).2.1 := by
  cases hdb : lookupDb s.registry sn fn with
  | some e2 =>
      have hgd := getDatabase_hit initF s sn fn e2 hdb
      exact ⟨e2, by rw [hgd]; exact hdb, by rw [hgd]⟩
  | none =>
      rw [getDatabase_miss initF s sn fn hdb]
      refine ⟨⟨some ⟨s.nextInstId, initF sn fn⟩, zeroStats⟩, ?_, rfl⟩
      rw [lookupDb_eq_outer]
      simp [lookupStr_setStr]

/-!
Stats accounting lemmas.
-/

theorem bump_totalRequests (st : ReqStats) (k : OpKind) (t : Int) :
    (bumpStats st k t).totalRequests = st.totalRequests + 1 := by
  cases k <;> rfl

theorem bump_totalTime (st : ReqStats) (k : OpKind) (t : Int) :
    (bumpStats st k t).totalTime = st.totalTime + t := by
  cases k <;> rfl

theorem bump_reqOf (k2 k : OpKind) (st : ReqStats) (t : Int) :
    reqOf k2 (bumpStats st k t) = reqOf k2 st + (if k2 = k then 1 else 0) := by
  cases k2 <;> cases k <;> simp [bumpStats, reqOf]

theorem bump_timeOf (k2 k : OpKind) (st : ReqStats) (t : Int) :
    timeOf k2 (bumpStats st k t) = timeOf k2 st + (if k2 = k then t else 0) := by
  cases k2 <;> cases k <;> simp [bumpStats, timeOf]

theorem reqOf_zero (k : OpKind) : reqOf k zeroStats = 0 := by
  cases k <;> rfl

theorem timeOf_zero (k : OpKind) : timeOf k zeroStats = 0 := by
  cases k <;> rfl

theorem listSum_setStr_absent {M : Type} [AddCommMonoid M] (w : α → M)
    (m : List (String × α)) (k : String) (v : α) (h : lookupStr m k = none) :
    ((setStr m k v).map (fun p => w p.2)).sum = (m.map (fun p => w p.2)).sum + w v := by
  induction m with
  | nil => simp [setStr]
  | cons q rest ih =>
      obtain ⟨k2, u⟩ := q
      simp only [lookupStr] at h
      by_cases h1 : k2 = k
      · rw [if_pos h1] at h; exact absurd h (by simp)
      · rw [if_neg h1] at h
        simp only [setStr, if_neg h1, List.map_cons, List.sum_cons, ih h]
        rw [add_assoc]

theorem listSum_setStr_found {M : Type} [AddCommMonoid M] (w : α → M)
    (m : List (String × α)) (k : String) (v a : α) (h : lookupStr m k = some a) :
    ((setStr m k v).map (fun p => w p.2)).sum + w a
      = (m.map (fun p => w p.2)).sum + w v := by
  induction m with
  | nil => simp [lookupStr] at h
  | cons q rest ih =>
      obtain ⟨k2, u⟩ := q
      simp only [lookupStr] at h
      by_cases h1 : k2 = k
      · rw [if_pos h1] at h
        have hu : u = a := by injection h
        subst hu
        simp only [setStr, if_pos h1, List.map_cons, List.sum_cons]
        abel
      · rw [if_neg h1] at h
        simp only [setStr, if_neg h1, List.map_cons, List.sum_cons]
        rw [add_assoc, ih h, add_assoc]

theorem listSum_modifyStr_found {M : Type} [AddCommMonoid M] (w : α → M)
    (m : List (String × α)) (k : String) (g : α → α) (a : α)
    (h : lookupStr m k = some a) :
    ((modifyStr m k g).map (fun p => w p.2)).sum + w a
      = (m.map (fun p => w p.2)).sum + w (g a) := by
  induction m with
  | nil => simp [lookupStr] at h
  | cons q rest ih =>
      obtain ⟨k2, u⟩ := q
      simp only [lookupStr] at h
      by_cases h1 : k2 = k
      · rw [if_pos h1] at h
        have hu : u = a := by injection h
        subst hu
        simp only [modifyStr, if_pos h1, List.map_cons, List.sum_cons]
        abel
      · rw [if_neg h1] at h
        simp only [modifyStr, if_neg h1, List.map_cons, List.sum_cons]
        rw [add_assoc, ih h, add_assoc]

theorem listSum_modifyStr_congr {M : Type} [AddCommMonoid M] (w : α → M)
    (g : α → α) (hw : ∀ x, w (g x) = w x) (m : List (String × α)) (k : String) :
    ((modifyStr m k g).map (fun p => w p.2)).sum = (m.map (fun p => w p.2)).sum := by
  induction m with
  | nil => rfl
  | cons q rest ih =>
      obtain ⟨k2, u⟩ := q
      by_cases h1 : k2 = k
      · simp only [modifyStr, if_pos h1, List.map_cons, List.sum_cons, hw]
      · simp only [modifyStr, if_neg h1, List.map_cons, List.sum_cons, ih]

theorem getDatabase_global (initF : InitF) (s : SvcState) (sn fn : String) :
    (getDatabase initF s sn fn).1.global = s.global := by
  cases hdb : lookupDb s.registry sn fn with
  | some e => rw [getDatabase_hit initF s sn fn e hdb]
  | none => rw [getDatabase_miss initF s sn fn hdb]

theorem statSum_getDatabase {M : Type} [AddCancelCommMonoid M] (f : ReqStats → M)
    (hz : f zeroStats = 0) (initF : InitF) (s : SvcState) (sn fn : String) :
    statSum f (getDatabase initF s sn fn).1.registry = statSum f s.registry := by
  cases hdb : lookupDb s.registry sn fn with
  | some e => rw [getDatabase_hit initF s sn fn e hdb]
  | none =>
      rw [getDatabase_miss initF s sn fn hdb]
      rw [lookupDb_eq_outer] at hdb
      cases hsn : lookupStr s.registry sn with
      | none =>
          rw [hsn] at hdb
          dsimp only
          simp only [Option.getD_none] at hdb ⊢
          unfold statSum
          have h := listSum_setStr_absent
            (fun inner2 : InnerReg => (inner2.map (fun q => f q.2.stats)).sum)
            s.registry sn
            (setStr [] fn ⟨some ⟨s.nextInstId, initF sn fn⟩, zeroStats⟩) hsn
          simp only [] at h
          rw [h]
          simp [setStr, hz]
      | some inner =>
          rw [hsn] at hdb
          dsimp only
          simp only [Option.getD_some] at hdb ⊢
          unfold statSum
          have houter := listSum_setStr_found
            (fun inner2 : InnerReg => (inner2.map (fun q => f q.2.stats)).sum)
            s.registry sn
            (setStr inner fn ⟨some ⟨s.nextInstId, initF sn fn⟩, zeroStats⟩) inner hsn
          have hinner := listSum_setStr_absent (fun e : Entry => f e.stats)
            inner fn ⟨some ⟨s.nextInstId, initF sn fn⟩, zeroStats⟩ hdb
          simp only [] at houter hinner
          rw [hinner] at houter
          simp only [hz, add_zero] at houter
          exact add_right_cancel houter

theorem statSum_nested_bump {M : Type} [AddCancelCommMonoid M] (f : ReqStats → M)
    (reg : Registry) (sn fn : String) (inner : InnerReg) (e : Entry)
    (g : Entry → Entry) (d : M)
    (hsn : lookupStr reg sn = some inner) (hfn : lookupStr inner fn = some e)
    (hd : f (g e).stats = f e.stats + d) :
    statSum f (modifyStr reg sn (fun i => modifyStr i fn g)) = statSum f reg + d := by
  unfold statSum
  have houter := listSum_modifyStr_found
    (fun inner2 : InnerReg => (inner2.map (fun q => f q.2.stats)).sum)
    reg sn (fun i => modifyStr i fn g) inner hsn
  have hinner := listSum_modifyStr_found (fun e2 : Entry => f e2.stats)
    inner fn g e hfn
  dsimp only at houter hinner
  rw [hd] at hinner
  have hmod : ((modifyStr inner fn g).map (fun q => f q.2.stats)).sum
      = (inner.map (fun q => f q.2.stats)).sum + d := by
    have h2 : ((modifyStr inner fn g).map (fun q => f q.2.stats)).sum + f e.stats
        = ((inner.map (fun q => f q.2.stats)).sum + d) + f e.stats := by
      rw [hinner]; abel
    exact add_right_cancel h2
  rw [hmod] at houter
  have h4 : ((modifyStr reg sn (fun i => modifyStr i fn g)).map
        (fun p => (p.2.map (fun q => f q.2.stats)).sum)).sum
        + (inner.map (fun q => f q.2.stats)).sum
      = ((reg.map (fun p => (p.2.map (fun q => f q.2.stats)).sum)).sum + d)
        + (inner.map (fun q => f q.2.stats)).sum := by
    rw [houter]; abel
  exact add_right_cancel h4

theorem statSum_setCollection {M : Type} [AddCommMonoid M] (f : ReqStats → M)
    (s : SvcState) (sn fn cname : String) (c : Collection) :
    statSum f (setCollection s sn fn cname c).registry = statSum f s.registry := by
  show statSum f (modifyStr s.registry sn _) = statSum f s.registry
  unfold statSum
  exact listSum_modifyStr_congr
    (fun inner2 : InnerReg => (inner2.map (fun q => f q.2.stats)).sum)
    (fun inner => modifyStr inner fn (fun e =>
      ⟨e.inst.map (fun db => ⟨db.instId, setStr db.collections cname c⟩), e.stats⟩))
    (fun inner => listSum_modifyStr_congr (fun e2 : Entry => f e2.stats)
      (fun e => ⟨e.inst.map (fun db => ⟨db.instId, setStr db.collections cname c⟩), e.stats⟩)
      (fun e => rfl) inner fn)
    s.registry sn

theorem lookupDb_nested_modify (reg : Registry) (sn fn : String) (g : Entry → Entry)
    (a b : String) :
    (lookupDb (modifyStr reg sn (fun inner => modifyStr inner fn g)) a b).isSome
      = (lookupDb reg a b).isSome := by
  by_cases h1 : sn = a
  · subst h1
    cases hsn : lookupStr reg sn with
    | none =>
        unfold lookupDb
        rw [lookupStr_modifyStr, if_pos rfl, hsn]
        rfl
    | some inner =>
        unfold lookupDb
        rw [lookupStr_modifyStr, if_pos rfl, hsn]
        show (lookupStr (modifyStr inner fn g) b).isSome = (lookupStr inner b).isSome
        rw [lookupStr_modifyStr]
        by_cases h2 : fn = b
        · subst h2
          rw [if_pos rfl]
          cases lookupStr inner fn <;> rfl
        · rw [if_neg h2]
  · unfold lookupDb
    rw [lookupStr_modifyStr, if_neg h1]

theorem statsConsistent_getDatabase (initF : InitF) (s : SvcState) (sn fn : String)
    (h : statsConsistent s) : statsConsistent (getDatabase initF s sn fn).1 := by
  obtain ⟨h1, h2, h3, h4⟩ := h
  refine ⟨?_, ?_, ?_, ?_⟩
  · rw [getDatabase_global, statSum_getDatabase ReqStats.totalRequests rfl]; exact h1
  · rw [getDatabase_global, statSum_getDatabase ReqStats.totalTime rfl]; exact h2
  · intro k
    rw [getDatabase_global, statSum_getDatabase (reqOf k) (reqOf_zero k)]; exact h3 k
  · intro k
    rw [getDatabase_global, statSum_getDatabase (timeOf k) (timeOf_zero k)]; exact h4 k

theorem statsConsistent_setCollection (s : SvcState) (sn fn cname : String) (c : Collection)
    (h : statsConsistent s) : statsConsistent (setCollection s sn fn cname c) := by
  obtain ⟨h1, h2, h3, h4⟩ := h
  refine ⟨?_, ?_, ?_, ?_⟩
  · rw [statSum_setCollection]; exact h1
  · rw [statSum_setCollection]; exact h2
  · intro k; rw [statSum_setCollection]; exact h3 k
  · intro k; rw [statSum_setCollection]; exact h4 k

theorem statsConsistent_stopTiming (s : SvcState) (sn fn : String) (k : OpKind) (t : Int)
    (h : statsConsistent s) (e : Entry) (he : lookupDb s.registry sn fn = some e) :
    statsConsistent (stopTiming s sn fn k t) := by
  obtain ⟨inner, hsn, hfn⟩ :
      ∃ inner, lookupStr s.registry sn = some inner ∧ lookupStr inner fn = some e := by
    unfold lookupDb at he
    cases hq : lookupStr s.registry sn with
    | none => rw [hq] at he; exact absurd he (by simp)
    | some i => rw [hq] at he; exact ⟨i, rfl, he⟩
  obtain ⟨h1, h2, h3, h4⟩ := h
  refine ⟨?_, ?_, ?_, ?_⟩
  · show (bumpStats s.global k t).totalRequests
        = statSum ReqStats.totalRequests (modifyStr s.registry sn
            (fun i => modifyStr i fn (fun e2 => ⟨e2.inst, bumpStats e2.stats k t⟩)))
    rw [bump_totalRequests,
      statSum_nested_bump ReqStats.totalRequests s.registry sn fn inner e
        (fun e2 => ⟨e2.inst, bumpStats e2.stats k t⟩) 1 hsn hfn
        (bump_totalRequests e.stats k t), h1]
  · show (bumpStats s.global k t).totalTime
        = statSum ReqStats.totalTime (modifyStr s.registry sn
            (fun i => modifyStr i fn (fun e2 => ⟨e2.inst, bumpStats e2.stats k t⟩)))
    rw [bump_totalTime,
      statSum_nested_bump ReqStats.totalTime s.registry sn fn inner e
        (fun e2 => ⟨e2.inst, bumpStats e2.stats k t⟩) t hsn hfn
        (bump_totalTime e.stats k t), h2]
  · intro k2
    show reqOf k2 (bumpStats s.global k t)
        = statSum (reqOf k2) (modifyStr s.registry sn
            (fun i => modifyStr i fn (fun e2 => ⟨e2.inst, bumpStats e2.stats k t⟩)))
    rw [bump_reqOf,
      statSum_nested_bump (reqOf k2) s.registry sn fn inner e
        (fun e2 => ⟨e2.inst, bumpStats e2.stats k t⟩) (if k2 = k then 1 else 0) hsn hfn
        (bump_reqOf k2 k e.stats t), h3 k2]
  · intro k2
    show timeOf k2 (bumpStats s.global k t)
        = statSum (timeOf k2) (modifyStr s.registry sn
            (fun i => modifyStr i fn (fun e2 => ⟨e2.inst, bumpStats e2.stats k t⟩)))
    rw [bump_timeOf,
      statSum_nested_bump (timeOf k2) s.registry sn fn inner e
        (fun e2 => ⟨e2.inst, bumpStats e2.stats k t⟩) (if k2 = k then t else 0) hsn hfn
        (bump_timeOf k2 k e.stats t), h4 k2]

theorem finishOp_second (k : OpKind) (sn fn : String) (t : Int)
    (p : SvcState × Except Err String) :
    (finishOp k sn fn t p).2 = p.2.map (fun resp => CbCall.mk none resp) := by
  obtain ⟨s, r⟩ := p
  cases r <;> rfl

theorem finishOp_first (k : OpKind) (sn fn : String) (t : Int)
    (p : SvcState × Except Err String) :
    (finishOp k sn fn t p).1
      = match p.2 with
        | .error _ => p.1
        | .ok _ => stopTiming p.1 sn fn k t := by
  obtain ⟨s, r⟩ := p
  cases r <;> rfl

theorem runOp_eq (initF : InitF) (s : SvcState) (sn fn : String)
    (body : Option DB → Except Err BodyOut) :
    runOp initF s sn fn body
      = match body (getDatabase initF s sn fn).2.1 with
        | .error er => ((getDatabase initF s sn fn).1, .error er)
        | .ok (out, none) => ((getDatabase initF s sn fn).1, .ok out)
        | .ok (out, some (cname, c)) =>
            (setCollection (getDatabase initF s sn fn).1 sn fn cname c, .ok out) := rfl

theorem statsConsistent_runOp (initF : InitF) (s : SvcState) (sn fn : String)
    (body : Option DB → Except Err BodyOut) (h : statsConsistent s) :
    statsConsistent (runOp initF s sn fn body).1 ∧
    (lookupDb (runOp initF s sn fn body).1.registry sn fn).isSome = true := by
  have hgd := statsConsistent_getDatabase initF s sn fn h
  obtain ⟨e, he1, ht⟩ := lookupDb_after_getDatabase initF s sn fn
  have hs1 : (lookupDb (getDatabase initF s sn fn).1.registry sn fn).isSome = true := by
    rw [he1]; rfl
  rw [runOp_eq]
  rcases hb : body (getDatabase initF s sn fn).2.1 with er | ⟨out, oc⟩
  · exact ⟨hgd, hs1⟩
  · rcases oc with _ | ⟨cname2, c2⟩
    · exact ⟨hgd, hs1⟩
    · refine ⟨statsConsistent_setCollection _ sn fn cname2 c2 hgd, ?_⟩
      show (lookupDb (modifyStr (getDatabase initF s sn fn).1.registry sn
          (fun inner => modifyStr inner fn (fun e2 =>
            ⟨e2.inst.map (fun db => ⟨db.instId, setStr db.collections cname2 c2⟩),
             e2.stats⟩))) sn fn).isSome = true
      rw [lookupDb_nested_modify]
      exact hs1

theorem statsConsistent_finishRunOp (k : OpKind) (initF : InitF) (s : SvcState)
    (sn fn : String) (body : Option DB → Except Err BodyOut) (t : Int)
    (h : statsConsistent s) :
    statsConsistent (finishOp k sn fn t (runOp initF s sn fn body)).1 := by
  obtain ⟨hc, hex⟩ := statsConsistent_runOp initF s sn fn body h
  rw [finishOp_first]
  cases hr : (runOp initF s sn fn body).2 with
  | error er => exact hc
  | ok resp =>
      obtain ⟨e, he⟩ :
          ∃ e, lookupDb (runOp initF s sn fn body).1.registry sn fn = some e := by
        cases hq : lookupDb (runOp initF s sn fn body).1.registry sn fn with
        | none => rw [hq] at hex; exact absurd hex (by simp)
        | some e => exact ⟨e, rfl⟩
      exact statsConsistent_stopTiming _ sn fn k t hc e he

theorem statsConsistent_step (initF : InitF) (s : SvcState) (r : Request)
    (h : statsConsistent s) : statsConsistent (stepRequest initF s r) := by
  cases r with
  | rGet sn fn cname id t =>
      exact statsConsistent_finishRunOp .get initF s sn fn (getBody cname id) t h
  | rFind sn fn cname query t =>
      exact statsConsistent_finishRunOp .find initF s sn fn (findBody cname query) t h
  | rInsert sn fn cname obj t =>
      exact statsConsistent_finishRunOp .insert initF s sn fn (insertBody cname obj) t h
  | rUpdate sn fn cname obj t =>
      exact statsConsistent_finishRunOp .update initF s sn fn (updateBody cname obj) t h
  | rRemove sn fn cname obj t =>
      exact statsConsistent_finishRunOp .remove initF s sn fn (removeBody cname obj) t h
  | rTransform sn fn cname tname tparams dataInvoke t =>
      show statsConsistent (finishOp .transform sn fn t
        (processTransform initF s sn fn cname tname tparams dataInvoke)).1
      unfold processTransform
      cases hpp : parseParams tparams with
      | error er => exact h
      | ok oparams => exact statsConsistent_finishRunOp .transform initF s sn fn _ t h
  | rDynamicView sn fn cname vname transformName tparams t =>
      exact statsConsistent_finishRunOp .dynamicView initF s sn fn _ t h

theorem runOp_hit (initF : InitF) (s : SvcState) (sn fn : String) (e : Entry)
    (body : Option DB → Except Err BodyOut)
    (h : lookupDb s.registry sn fn = some e) :
    runOp initF s sn fn body
      = match body e.inst with
        | .error er => (s, .error er)
        | .ok (out, none) => (s, .ok out)
        | .ok (out, some (cname, c)) => (setCollection s sn fn cname c, .ok out) := by
  unfold runOp
  rw [getDatabase_hit initF s sn fn e h]

theorem stripUpdate_meta_none (q : Rec) : getProp (stripUpdate q) "meta" = none := by
  unfold stripUpdate
  by_cases hm : hasProp q "meta"
  · rw [if_pos hm, getProp_deleteProp, if_pos rfl]
  · rw [if_neg hm]
    unfold hasProp at hm
    cases hq : getProp q "meta" with
    | none => rfl
    | some u => rw [hq] at hm; simp at hm

theorem stripUpdate_other (q : Rec) (f : String) (hf : f ≠ "meta") :
    getProp (stripUpdate q) f = getProp q f := by
  unfold stripUpdate
  by_cases hm : hasProp q "meta"
  · rw [if_pos hm, getProp_deleteProp, if_neg (fun h => hf h.symm)]
  · rw [if_neg hm]

theorem stripInsert_eq (p : Rec) (hzero : getProp p "$loki" = some (.prim (.pnum 0))) :
    stripInsert p = stripUpdate (deleteProp p "$loki") := by
  unfold stripInsert stripUpdate
  rw [hzero]
  rfl

/-!
Claim theorems.
-/

/-- C6: the instanceStats export at an (identity, path) pair that was
never registered invokes callback(null) but then throws a TypeError (the
miss checks lack a return statement, so execution continues into a
property access on undefined), for both the unknown-serviceName and the
unknown-filename miss; the code therefore violates the claim that the
lookup miss raises no error. -/
theorem C6_instanceStats_miss_throws :
    instanceStatsX [] "demo1-service.init.js" "./demo1.db" = ([.nullOnly], true) ∧
    instanceStatsX
        [("demo1-service.init.js",
          [("./other.db", ⟨some ⟨0, demoInit "demo1-service.init.js" "./other.db"⟩, zeroStats⟩)])]
        "demo1-service.init.js" "./demo1.db"
      = ([.nullOnly], true) :=
  ⟨rfl, rfl⟩

/-- C5: the dynamicView operation with a supplied transform name branches
the view through the string literal "transformName", not the supplied
name: over the demo seed, requesting view Youngsters with the registered
transform goddesses (params AgeFilter 100) throws unknownTransform, while
branching the view through the supplied name — what the claim states —
yields the view's goddesses sorted by age descending. -/
theorem C5_dynamicView_ignores_supplied_name :
    (processDynamicView demoInit initState "demo1-service.init.js" "./demo1.db" "users"
        "Youngsters" (some "goddesses") (some (some [("AgeFilter", .prim (.pnum 100))]))).2
      = .error .unknownTransform ∧
    branchData [("AgeFilter", .prim (.pnum 100))] demoUsers youngstersView "goddesses"
      = .ok [mkUser 4 "sif" 30 1 ["golden hair"], mkUser 6 "sigyn" 24 1 ["relief"]] :=
  ⟨rfl, rfl⟩

/-- C7 counterexample: shutdown over an empty registry closes nothing and
never invokes the completion callback, so it does not report completion
as the claim states. -/
theorem C7_empty_shutdown_no_report : shutdownCalls ([] : Registry) = [] := rfl

/-- C8 counterexample: a find request whose serialized query fails to
parse reports MalformedInput, yet on a first-use key the registry entry
has already been created by resolution before the parse runs, so the
request is not free of side effects as the claim states. -/
theorem C8_find_malformed_creates_entry :
    (processFind demoInit initState "demo1-service.init.js" "./demo1.db" "users"
        (.serial none)).2 = .error .malformedInput ∧
    (lookupDb (processFind demoInit initState "demo1-service.init.js" "./demo1.db" "users"
        (.serial none)).1.registry "demo1-service.init.js" "./demo1.db").isSome = true :=
  ⟨rfl, rfl⟩

/-- C8 amended: a serialized parameter that fails to parse makes the
operation throw MalformedInput with no store data access, no store
mutation and no stats recording; for transform the parse precedes even
registry resolution (the state is fully unchanged), while for the other
operations the parse happens inside the resolution callback, so the only
side effect is resolution itself (a first-use request registers an
entry). -/
theorem C8_malformed_input_effects (initF : InitF) (s : SvcState)
    (sn fn cname tname vname : String) (dataInvoke : Option Bool)
    (transformName : Option String) :
    processTransform initF s sn fn cname tname (some none) dataInvoke
      = (s, .error .malformedInput) ∧
    processFind initF s sn fn cname (.serial none)
      = ((getDatabase initF s sn fn).1, .error .malformedInput) ∧
    processInsert initF s sn fn cname (.serial none)
      = ((getDatabase initF s sn fn).1, .error .malformedInput) ∧
    processUpdate initF s sn fn cname (.serial none)
      = ((getDatabase initF s sn fn).1, .error .malformedInput) ∧
    processRemove initF s sn fn cname (.serial none)
      = ((getDatabase initF s sn fn).1, .error .malformedInput) ∧
    processDynamicView initF s sn fn cname vname transformName (some (none : Option Rec))
      = ((getDatabase initF s sn fn).1, .error .malformedInput) :=
  ⟨rfl, rfl, rfl, rfl, rfl, rfl⟩

theorem runResolves_cons (initF : InitF) (s : SvcState) (a b : String)
    (rest : List (String × String)) :
    runResolves initF s ((a, b) :: rest)
      = ((runResolves initF (getDatabase initF s a b).1 rest).1,
         ⟨a, b, (getDatabase initF s a b).2.1.map DB.instId, (getDatabase initF s a b).2.2⟩
           :: (runResolves initF (getDatabase initF s a b).1 rest).2) := rfl

theorem constructionCount_cons (o : ResolveObs) (log : List ResolveObs) (sn fn : String) :
    constructionCount (o :: log) sn fn
      = (if o.sn == sn && o.fn == fn && o.constructed then 1 else 0)
        + constructionCount log sn fn := by
  unfold constructionCount
  rw [List.filter_cons]
  by_cases hp : (o.sn == sn && o.fn == fn && o.constructed) = true
  · rw [if_pos hp, if_pos hp, List.length_cons]
    omega
  · rw [if_neg hp, if_neg hp]
    omega

theorem runResolves_preserve (initF : InitF) (s : SvcState)
    (ks : List (String × String)) (a b : String) (e : Entry)
    (h : lookupDb s.registry a b = some e) :
    lookupDb (runResolves initF s ks).1.registry a b = some e := by
  induction ks generalizing s with
  | nil => exact h
  | cons kf rest ih =>
      obtain ⟨x, y⟩ := kf
      rw [runResolves_cons]
      exact ih _ (lookupDb_getDatabase_preserve initF s x y a b e h)

theorem constructionCount_zero_of_registered (initF : InitF) (s : SvcState)
    (ks : List (String × String)) (sn fn : String)
    (h : (lookupDb s.registry sn fn).isSome = true) :
    constructionCount (runResolves initF s ks).2 sn fn = 0 := by
  induction ks generalizing s with
  | nil => rfl
  | cons kf rest ih =>
      obtain ⟨a, b⟩ := kf
      obtain ⟨e, he⟩ : ∃ e, lookupDb s.registry sn fn = some e := by
        cases hq : lookupDb s.registry sn fn with
        | none => rw [hq] at h; exact absurd h (by simp)
        | some e => exact ⟨e, rfl⟩
      rw [runResolves_cons, constructionCount_cons]
      have hrest : constructionCount (runResolves initF (getDatabase initF s a b).1 rest).2 sn fn = 0 := by
        apply ih
        rw [lookupDb_getDatabase_preserve initF s a b sn fn e he]
        rfl
      rw [hrest]
      by_cases hk : a = sn ∧ b = fn
      · obtain ⟨rfl, rfl⟩ := hk
        rw [getDatabase_hit initF s a b e he]
        simp
      · have : (a == sn && b == fn && (getDatabase initF s a b).2.2) = false := by
          rcases Decidable.not_and_iff_or_not.mp hk with hne | hne <;>
            simp [beq_iff_eq, hne]
        rw [this]
        simp

theorem runResolves_count_le_one (initF : InitF) (s : SvcState)
    (ks : List (String × String)) (sn fn : String) :
    constructionCount (runResolves initF s ks).2 sn fn ≤ 1 := by
  induction ks generalizing s with
  | nil => exact Nat.zero_le 1
  | cons kf rest ih =>
      obtain ⟨a, b⟩ := kf
      rw [runResolves_cons, constructionCount_cons]
      by_cases hk : a = sn ∧ b = fn
      · obtain ⟨rfl, rfl⟩ := hk
        cases hdb : lookupDb s.registry a b with
        | some e =>
            rw [getDatabase_hit initF s a b e hdb]
            simpa using ih s
        | none =>
            have hreg : (lookupDb (getDatabase initF s a b).1.registry a b).isSome = true := by
              obtain ⟨e, he1, _⟩ := lookupDb_after_getDatabase initF s a b
              rw [he1]; rfl
            rw [constructionCount_zero_of_registered initF _ rest a b hreg]
            have hflag : (getDatabase initF s a b).2.2 = true := by
              rw [getDatabase_miss initF s a b hdb]
            rw [hflag]
            simp
      · have hfalse : (a == sn && b == fn && (getDatabase initF s a b).2.2) = false := by
          rcases Decidable.not_and_iff_or_not.mp hk with hne | hne <;>
            simp [beq_iff_eq, hne]
        rw [hfalse]
        simpa using ih (getDatabase initF s a b).1

theorem runResolves_cached (initF : InitF) (s : SvcState)
    (ks : List (String × String)) :
    ∀ o ∈ (runResolves initF s ks).2,
      cachedInstId (runResolves initF s ks).1 o.sn o.fn = some o.inst := by
  induction ks generalizing s with
  | nil => intro o ho; exact absurd ho (by simp [runResolves])
  | cons kf rest ih =>
      obtain ⟨a, b⟩ := kf
      intro o ho
      rw [runResolves_cons] at ho ⊢
      simp only [List.mem_cons] at ho
      rcases ho with rfl | ho
      · obtain ⟨e, he1, he2⟩ := lookupDb_after_getDatabase initF s a b
        have hpers := runResolves_preserve initF (getDatabase initF s a b).1 rest a b e he1
        unfold cachedInstId
        rw [hpers]
        show some (e.inst.map DB.instId) = some ((getDatabase initF s a b).2.1.map DB.instId)
        rw [he2]
      · exact ih (getDatabase initF s a b).1 o ho

/-- C1: over any sequence of getDatabase resolutions of the same
(initializer identity, storage path) key, the initializer's construction
capability is invoked at most once, and every request's callback observes
exactly the instance cached in the registry entry for its key (so all
observers of one key see the identical instance). -/
theorem C1_registry_single_construction (initF : InitF) (s : SvcState)
    (ks : List (String × String)) (sn fn : String) :
    constructionCount (runResolves initF s ks).2 sn fn ≤ 1 ∧
    ∀ o ∈ (runResolves initF s ks).2,
      cachedInstId (runResolves initF s ks).1 o.sn o.fn = some o.inst :=
  ⟨runResolves_count_le_one initF s ks sn fn, runResolves_cached initF s ks⟩

/-- C1 witness: resolving the same key twice then a different key invokes
construction once for the repeated key, and the first observation equals
the cached instance identity. -/
theorem C1_registry_single_construction_witness :
    cachedInstId
        (runResolves demoInit initState [("s", "f"), ("s", "f"), ("s2", "f2")]).1 "s" "f"
      = some (some 0) :=
  (C1_registry_single_construction demoInit initState
      [("s", "f"), ("s", "f"), ("s2", "f2")] "s" "f").2
    ⟨"s", "f", some 0, true⟩ (by decide)

/-- C2: after any sequence of requests over the export surface from the
initial state, the global stats bucket and the per-instance buckets are
consistent: every completed operation bumped exactly one matching
per-operation counter and accumulated its elapsed time once in both, so
the global total requests (and total time, and every per-kind counter and
time) equals the sum of the matching field over all registered
instances. -/
theorem C2_stats_consistent (initF : InitF) (reqs : List Request) :
    statsConsistent (runRequests initF initState reqs) := by
  have hgen : ∀ s, statsConsistent s → statsConsistent (runRequests initF s reqs) := by
    induction reqs with
    | nil => intro s hs; exact hs
    | cons r rest ih =>
        intro s hs
        exact ih (stepRequest initF s r) (statsConsistent_step initF s r hs)
  exact hgen initState
    ⟨rfl, rfl, fun k => by cases k <;> rfl, fun k => by cases k <;> rfl⟩

/-- C4: an update payload whose identity matches no record in the
collection makes the operation fail — the lookup returns null and the
following merge throws, the RecordNotFound failure reported to the
caller — and performs no mutation: the service state is returned
unchanged. -/
theorem C4_update_missing_target (initF : InitF) (s : SvcState) (sn fn cname : String)
    (p : Rec) (e : Entry) (db : DB) (c : Collection) (n : Int)
    (hreg : lookupDb s.registry sn fn = some e)
    (hinst : e.inst = some db)
    (hcoll : lookupStr db.collections cname = some c)
    (hid : idOfVal (getProp (stripUpdate p) "$loki") = some n)
    (hmiss : collGet c n = none) :
    processUpdate initF s sn fn cname (.native p) = (s, .error .recordNotFound) := by
  unfold processUpdate
  rw [runOp_hit initF s sn fn e _ hreg]
  have hbody : updateBody cname (.native p) e.inst = .error .recordNotFound := by
    rw [hinst]
    simp [updateBody, parseSArg, getCollectionE, hcoll, hid, hmiss, Bind.bind, Except.bind]
  rw [hbody]

/-- C4 witness: over the demo seed, updating users with a payload whose
identity 42 matches no record reports recordNotFound and leaves the state
unchanged. -/
theorem C4_update_missing_target_witness :
    processUpdate demoInit demoState "svc" "db" "users"
        (.native [("$loki", .prim (.pnum 42))])
      = (demoState, .error .recordNotFound) :=
  C4_update_missing_target demoInit demoState "svc" "db" "users"
    [("$loki", .prim (.pnum 42))] demoEntry ⟨0, demoInit "svc" "db"⟩ demoUsers 42
    rfl rfl rfl rfl rfl

/-- C3 counterexample: updating a record whose existing meta field is
"stale" with a payload that names meta "fresh" leaves meta "stale": the
code strips meta from the payload before the merge, so this
payload-named field does not take the payload's value as the claim
states. -/
theorem C3_meta_not_overwritten :
    (processUpdate metaInit metaState "svc" "db" "users"
        (.native [("$loki", .prim (.pnum 5)), ("age", .prim (.pnum 31)),
                  ("meta", .prim (.pstr "fresh"))])).2
      = .ok (stringifyRec
          [("name", .prim (.pstr "sif")), ("age", .prim (.pnum 31)), ("tags", .arr [.pstr "a"]),
           ("meta", .prim (.pstr "stale")), ("$loki", .prim (.pnum 5))]) ∧
    getProp
        [("name", .prim (.pstr "sif")), ("age", .prim (.pnum 31)), ("tags", .arr [.pstr "a"]),
         ("meta", .prim (.pstr "stale")), ("$loki", .prim (.pnum 5))] "meta"
      = some (.prim (.pstr "stale")) ∧
    (Val.prim (.pstr "stale")) ≠ (Val.prim (.pstr "fresh")) := by
  refine ⟨rfl, rfl, ?_⟩
  decide

/-- C3 amended: update merges the meta-stripped payload onto the existing
record by simple key overwrite — every field named in the stripped
payload takes the payload's value and every other field of the existing
record keeps its previous value — and writes the merged record back into
the collection; the payload's meta bookkeeping field itself is dropped
before the merge rather than merged. -/
theorem C3_update_merge (initF : InitF) (s : SvcState) (sn fn cname : String)
    (p : Rec) (e : Entry) (db : DB) (c : Collection) (doc : Rec) (n : Int)
    (hreg : lookupDb s.registry sn fn = some e)
    (hinst : e.inst = some db)
    (hcoll : lookupStr db.collections cname = some c)
    (hid : idOfVal (getProp (stripUpdate p) "$loki") = some n)
    (hdoc : collGet c n = some doc)
    (hnd : keysNodup (stripUpdate p)) :
    processUpdate initF s sn fn cname (.native p)
      = (setCollection s sn fn cname (collUpdate c (objAssign doc (stripUpdate p))),
         .ok (stringifyRec (objAssign doc (stripUpdate p)))) ∧
    ∀ f, getProp (objAssign doc (stripUpdate p)) f
        = match getProp (stripUpdate p) f with
          | some v => some v
          | none => getProp doc f := by
  constructor
  · unfold processUpdate
    rw [runOp_hit initF s sn fn e _ hreg]
    have hbody : updateBody cname (.native p) e.inst
        = .ok (stringifyRec (objAssign doc (stripUpdate p)),
               some (cname, collUpdate c (objAssign doc (stripUpdate p)))) := by
      rw [hinst]
      simp [updateBody, parseSArg, getCollectionE, hcoll, hid, hdoc, Bind.bind, Except.bind]
    rw [hbody]
  · intro f
    exact getProp_objAssign doc (stripUpdate p) f hnd

/-- C3 witness: over the demo seed, updating sif (identity 4) with age 31
yields the merged record with age overwritten and every other field
surviving, written back to the collection. -/
theorem C3_update_merge_witness :
    processUpdate demoInit demoState "svc" "db" "users"
        (.native [("$loki", .prim (.pnum 4)), ("age", .prim (.pnum 31))])
      = (setCollection demoState "svc" "db" "users"
           (collUpdate demoUsers
             (objAssign (mkUser 4 "sif" 30 1 ["golden hair"])
               (stripUpdate [("$loki", .prim (.pnum 4)), ("age", .prim (.pnum 31))]))),
         .ok (stringifyRec
           (objAssign (mkUser 4 "sif" 30 1 ["golden hair"])
             (stripUpdate [("$loki", .prim (.pnum 4)), ("age", .prim (.pnum 31))])))) :=
  (C3_update_merge demoInit demoState "svc" "db" "users"
    [("$loki", .prim (.pnum 4)), ("age", .prim (.pnum 31))] demoEntry
    ⟨0, demoInit "svc" "db"⟩ demoUsers (mkUser 4 "sif" 30 1 ["golden hair"]) 4
    rfl rfl rfl rfl rfl (by unfold keysNodup; decide)).1

/-- C9: insert strips a literal zero surrogate identity and the meta
bookkeeping field before the record reaches the store, so the stored
record's identity is assigned by the store (the next identity, never
0). -/
theorem C9_insert_strips_surrogate (initF : InitF) (s : SvcState) (sn fn cname : String)
    (p : Rec) (e : Entry) (db : DB) (c : Collection)
    (hreg : lookupDb s.registry sn fn = some e)
    (hinst : e.inst = some db)
    (hcoll : lookupStr db.collections cname = some c)
    (hzero : getProp p "$loki" = some (.prim (.pnum 0))) :
    getProp (stripInsert p) "$loki" = none ∧
    getProp (stripInsert p) "meta" = none ∧
    (processInsert initF s sn fn cname (.native p)).2
      = .ok (stringifyRec (setProp (stripInsert p) "$loki"
          (.prim (.pnum (Int.ofNat (c.maxId + 1)))))) ∧
    getProp (setProp (stripInsert p) "$loki" (.prim (.pnum (Int.ofNat (c.maxId + 1))))) "$loki"
      = some (.prim (.pnum (Int.ofNat (c.maxId + 1)))) ∧
    (Int.ofNat (c.maxId + 1)) ≠ 0 := by
  have hsl : getProp (stripInsert p) "$loki" = none := by
    rw [stripInsert_eq p hzero,
      stripUpdate_other (deleteProp p "$loki") "$loki" (by decide),
      getProp_deleteProp, if_pos rfl]
  have hsm : getProp (stripInsert p) "meta" = none := by
    rw [stripInsert_eq p hzero]
    exact stripUpdate_meta_none (deleteProp p "$loki")
  have hnoid : hasProp (stripInsert p) "$loki" = false := by
    unfold hasProp
    rw [hsl]
    rfl
  refine ⟨hsl, hsm, ?_, ?_, ?_⟩
  · unfold processInsert
    rw [runOp_hit initF s sn fn e _ hreg]
    have hbody : insertBody cname (.native p) e.inst
        = .ok (stringifyRec (setProp (stripInsert p) "$loki"
              (.prim (.pnum (Int.ofNat (c.maxId + 1))))),
            some (cname,
              ⟨c.maxId + 1,
               c.docs ++ [setProp (stripInsert p) "$loki"
                  (.prim (.pnum (Int.ofNat (c.maxId + 1))))],
               c.transforms, c.views⟩)) := by
      rw [hinst]
      simp [insertBody, parseSArg, getCollectionE, hcoll, collInsert, hnoid,
        Bind.bind, Except.bind]
    rw [hbody]
  · rw [getProp_setProp, if_pos rfl]
  · simp only [Int.ofNat_eq_coe, ne_eq, Nat.cast_eq_zero]
    omega

/-- C9 witness: inserting a record with surrogate identity 0 and name x
into the demo users collection stores it under the store-assigned
identity 8. -/
theorem C9_insert_strips_surrogate_witness :
    (processInsert demoInit demoState "svc" "db" "users"
        (.native [("$loki", .prim (.pnum 0)), ("name", .prim (.pstr "x"))])).2
      = .ok (stringifyRec (setProp
          (stripInsert [("$loki", .prim (.pnum 0)), ("name", .prim (.pstr "x"))])
          "$loki" (.prim (.pnum (Int.ofNat (demoUsers.maxId + 1)))))) :=
  (C9_insert_strips_surrogate demoInit demoState "svc" "db" "users"
    [("$loki", .prim (.pnum 0)), ("name", .prim (.pstr "x"))] demoEntry
    ⟨0, demoInit "svc" "db"⟩ demoUsers rfl rfl rfl rfl).2.2.1

theorem shutdown_foldl_acc (a : List (String × String)) (l : Registry) :
    l.foldl (fun acc p => acc ++ innerCalls p.1 p.2) a
      = a ++ l.foldl (fun acc p => acc ++ innerCalls p.1 p.2) [] := by
  induction l generalizing a with
  | nil => simp
  | cons p rest ih =>
      simp only [List.foldl_cons]
      rw [ih (a ++ innerCalls p.1 p.2), ih ([] ++ innerCalls p.1 p.2)]
      simp [List.append_assoc]

theorem shutdownCalls_cons (p : String × InnerReg) (rest : Registry) :
    shutdownCalls (p :: rest) = innerCalls p.1 p.2 ++ shutdownCalls rest := by
  unfold shutdownCalls
  rw [List.foldl_cons, shutdown_foldl_acc]
  simp

theorem innerCalls_count (sn0 : String) (inner : InnerReg) (sn fn : String)
    (hnd : keysNodup inner) :
    (innerCalls sn0 inner).count (sn, fn)
      = if sn0 = sn ∧ innerLive inner fn = true then 1 else 0 := by
  induction inner with
  | nil => simp [innerCalls, innerLive, lookupStr]
  | cons q rest ih =>
      obtain ⟨k, e⟩ := q
      have hnd' : (k ∉ rest.map Prod.fst) ∧ keysNodup rest := by
        unfold keysNodup at hnd ⊢
        rw [List.map_cons, List.nodup_cons] at hnd
        exact hnd
      have ihr := ih hnd'.2
      have hrestnone : lookupStr rest k = none :=
        lookupStr_none_of_not_mem rest k hnd'.1
      cases hinst : e.inst with
      | some dbv =>
          have hcons : innerCalls sn0 ((k, e) :: rest) = (sn0, k) :: innerCalls sn0 rest := by
            unfold innerCalls
            rw [List.filterMap_cons, hinst]
          rw [hcons, List.count_cons, ihr]
          by_cases hk : k = fn
          · subst hk
            have hlive : innerLive ((k, e) :: rest) k = true := by
              unfold innerLive
              simp [lookupStr, hinst]
            have hdead : innerLive rest k = false := by
              unfold innerLive
              rw [hrestnone]
            rw [hlive, hdead]
            by_cases hs : sn0 = sn
            · subst hs; simp
            · have hne2 : ¬((sn0, k) = (sn, k)) := fun hcontra => hs (congrArg Prod.fst hcontra)
              simp [hne2, hs]
          · have hsame : innerLive ((k, e) :: rest) fn = innerLive rest fn := by
              unfold innerLive
              simp [lookupStr, hk]
            rw [hsame]
            have hne2 : ¬((sn0, k) = (sn, fn)) := fun hcontra => hk (congrArg Prod.snd hcontra)
            simp [hne2]
      | none =>
          have hcons : innerCalls sn0 ((k, e) :: rest) = innerCalls sn0 rest := by
            unfold innerCalls
            rw [List.filterMap_cons, hinst]
          rw [hcons, ihr]
          by_cases hk : k = fn
          · subst hk
            have h1 : innerLive ((k, e) :: rest) k = false := by
              unfold innerLive
              simp [lookupStr, hinst]
            have h2 : innerLive rest k = false := by
              unfold innerLive
              rw [hrestnone]
            rw [h1, h2]
          · have hsame : innerLive ((k, e) :: rest) fn = innerLive rest fn := by
              unfold innerLive
              simp [lookupStr, hk]
            rw [hsame]

/-- C7 amended: one shutdown call closes each registry entry holding a
non-null instance exactly once and invokes the completion callback once
per such entry; on an empty registry it is safe but invokes the callback
zero times (no completion report), and a repeated call (the registry is
left untouched) again runs without failing. -/
theorem C7_shutdown_closes_each_once (reg : Registry) (sn fn : String)
    (hnd : keysNodup reg) (hinner : ∀ p ∈ reg, keysNodup p.2) :
    (shutdownCalls reg).count (sn, fn) = if isLive reg sn fn = true then 1 else 0 := by
  induction reg with
  | nil => simp [shutdownCalls, isLive, lookupDb, lookupStr]
  | cons p rest ih =>
      obtain ⟨k, inner⟩ := p
      have hnd' : (k ∉ rest.map Prod.fst) ∧ keysNodup rest := by
        unfold keysNodup at hnd ⊢
        rw [List.map_cons, List.nodup_cons] at hnd
        exact hnd
      have hin : keysNodup inner := hinner (k, inner) (by simp)
      have ihr := ih hnd'.2 (fun q hq => hinner q (by simp [hq]))
      rw [shutdownCalls_cons, List.count_append, innerCalls_count k inner sn fn hin, ihr]
      by_cases hk : k = sn
      · subst hk
        have hrest : isLive rest k fn = false := by
          unfold isLive lookupDb
          rw [lookupStr_none_of_not_mem rest k hnd'.1]
        have hcons : isLive ((k, inner) :: rest) k fn = innerLive inner fn := by
          unfold isLive lookupDb innerLive
          simp [lookupStr]
        rw [hrest, hcons]
        by_cases hl : innerLive inner fn = true <;> simp [hl]
      · have hcons : isLive ((k, inner) :: rest) sn fn = isLive rest sn fn := by
          unfold isLive lookupDb
          simp [lookupStr, hk]
        rw [hcons]
        simp [hk]

/-- C7 witness: shutdown over a registry with two live entries closes the
("svcA", "f1") entry exactly once and reports completion for it. -/
theorem C7_shutdown_closes_each_once_witness :
    (shutdownCalls twoLiveReg).count ("svcA", "f1")
      = if isLive twoLiveReg "svcA" "f1" = true then 1 else 0 :=
  C7_shutdown_closes_each_once twoLiveReg "svcA" "f1"
    (by unfold keysNodup; decide)
    (by intro p hp
        simp only [twoLiveReg, List.mem_cons, List.not_mem_nil, or_false] at hp
        rcases hp with rfl | rfl
        · unfold keysNodup; decide
        · unfold keysNodup; decide)

/-- C10: every data operation of the export surface that runs to
completion invokes the host callback with a null first (error) argument
and the serialized result as its second argument; a failure is only ever
thrown, never delivered through the callback's error argument. -/
theorem C10_callback_null_error (initF : InitF) (s : SvcState)
    (sn fn cname vname tname : String) (id : IdArg) (query : SArg Query)
    (obj1 obj2 obj3 : SArg Rec) (tparams tparams2 : Option (Option Rec))
    (dataInvoke : Option Bool) (transformName : Option String) (t : Int) :
    (exportsGet initF s sn fn cname id t).2
      = (processGet initF s sn fn cname id).2.map (fun resp => CbCall.mk none resp) ∧
    (exportsFind initF s sn fn cname query t).2
      = (processFind initF s sn fn cname query).2.map (fun resp => CbCall.mk none resp) ∧
    (exportsInsert initF s sn fn cname obj1 t).2
      = (processInsert initF s sn fn cname obj1).2.map (fun resp => CbCall.mk none resp) ∧
    (exportsUpdate initF s sn fn cname obj2 t).2
      = (processUpdate initF s sn fn cname obj2).2.map (fun resp => CbCall.mk none resp) ∧
    (exportsRemove initF s sn fn cname obj3 t).2
      = (processRemove initF s sn fn cname obj3).2.map (fun resp => CbCall.mk none resp) ∧
    (exportsTransform initF s sn fn cname tname tparams dataInvoke t).2
      = (processTransform initF s sn fn cname tname tparams dataInvoke).2.map
          (fun resp => CbCall.mk none resp) ∧
    (exportsDynamicView initF s sn fn cname vname transformName tparams2 t).2
      = (processDynamicView initF s sn fn cname vname transformName tparams2).2.map
          (fun resp => CbCall.mk none resp) :=
  ⟨finishOp_second _ _ _ _ _, finishOp_second _ _ _ _ _, finishOp_second _ _ _ _ _,
   finishOp_second _ _ _ _ _, finishOp_second _ _ _ _ _, finishOp_second _ _ _ _ _,
   finishOp_second _ _ _ _ _⟩

end LokiService
